import Mathlib

/-!
Shallow embedding of the Assessment Session & Progression Engine of the
digital-competency-platform repository, together with proofs about its
scoring, leveling, answer-submission and progress-tracking rules.

The definitions mirror the instance methods and pre-save hooks of
src/backend/src/models/AssessmentSession.ts and
src/backend/src/models/AssessmentProgress.ts.  JavaScript `Date` values are
modelled as integer epoch milliseconds; the wall clock is passed explicitly
as a `now : Int` parameter.  `Math.round(a / b)` on non-negative operands is
modelled exactly as `(2*a + b) / (2*b)` in natural-number division.
-/

namespace DCP

/-- The six competency levels, `AssessmentLevel` in types/index.ts. -/
inductive AssessmentLevel
  | A1 | A2 | B1 | B2 | C1 | C2
deriving DecidableEq, Repr

/-- Session status, `AssessmentStatus` in types/index.ts. -/
inductive AssessmentStatus
  | notStarted | inProgress | completed | failed | expired
deriving DecidableEq, Repr

/-- Question type, `QuestionType` in types/index.ts. -/
inductive QuestionType
  | multipleChoice | trueFalse | scenario | practical
deriving DecidableEq, Repr

/-- One option of a multiple-choice question (the `options` entries of the
question snapshot schema). -/
structure QuestionOption where
  id : String
  text : String
  isCorrect : Bool
  order : Nat
deriving DecidableEq, Repr

/-- A question as snapshotted into a session (`AssessmentQuestionSchema`);
media URLs are omitted as no engine operation reads them. -/
structure AssessmentQuestion where
  questionId : String
  order : Nat
  competency : String
  level : AssessmentLevel
  points : Nat
  timeAllowed : Nat
  questionText : String
  questionType : QuestionType
  options : List QuestionOption
deriving DecidableEq, Repr

/-- A submitted answer embedded in a session (`AssessmentAnswerSchema`). -/
structure AssessmentAnswer where
  questionId : String
  selectedAnswers : List String
  timeSpent : Nat
  isCorrect : Bool
  pointsEarned : Nat
  answeredAt : Int
  changedAnswers : Nat
  tabSwitches : Nat
  copyPasteDetected : Bool
deriving DecidableEq, Repr

/-- An integrity flag (`CheatingFlagSchema`). -/
structure CheatingFlag where
  flagType : String
  details : String
  timestamp : Int
  severity : String
deriving DecidableEq, Repr

/-- The session document (`AssessmentSessionSchema`).  Optional schema fields
are `Option`; `step` is a `Nat` (the schema enum restricts it to 1..3). -/
structure AssessmentSession where
  userId : String
  step : Nat
  status : AssessmentStatus
  questions : List AssessmentQuestion
  startTime : Option Int
  endTime : Option Int
  timeAllowed : Nat
  answers : List AssessmentAnswer
  score : Option Nat
  percentage : Option Nat
  levelAchieved : Option AssessmentLevel
  passed : Bool
  canProceedToNextStep : Bool
  nextStepUnlockedAt : Option Int
  isCompleted : Bool
  isSubmitted : Bool
  hasCheatingFlags : Bool
  cheatingDetails : List CheatingFlag
deriving DecidableEq, Repr

/-- JavaScript `Math.round (num / den)` for non-negative operands and positive
`den`: the floor of `num/den + 1/2`, here written with natural division. -/
def jsRoundRatio (num den : Nat) : Nat :=
  (2 * num + den) / (2 * den)

/-- Sum of `points` over the session's question snapshot (the `totalPoints`
accumulator of `calculateScore`). -/
def totalPossiblePoints (s : AssessmentSession) : Nat :=
  (s.questions.map (·.points)).sum

/-- Sum of `pointsEarned` over the session's answers (the `earnedPoints`
accumulator of `calculateScore`). -/
def earnedPoints (s : AssessmentSession) : Nat :=
  (s.answers.map (·.pointsEarned)).sum

/-- Return value of `calculateScore`. -/
structure ScoreResult where
  score : Nat
  percentage : Nat
  correctAnswers : Nat
deriving DecidableEq, Repr

/-- Instance method `calculateScore` (AssessmentSession.ts lines 329-355).
Returns `{score: 0, percentage: 0, correctAnswers: 0}` when no answers exist;
otherwise the earned points, the rounded percentage (0 when the total is 0)
and the number of correct answers. -/
def calculateScore (s : AssessmentSession) : ScoreResult :=
  if s.answers.isEmpty then
    { score := 0, percentage := 0, correctAnswers := 0 }
  else
    let totalPoints := (s.questions.map (·.points)).sum
    let earned := (s.answers.map (·.pointsEarned)).sum
    let correctAnswers := (s.answers.filter (·.isCorrect)).length
    let percentage := if totalPoints > 0 then jsRoundRatio (100 * earned) totalPoints else 0
    { score := earned, percentage := percentage, correctAnswers := correctAnswers }

/-- The `stepLevelMap` literal of `determineLevel`: step 1 pairs A1/A2,
step 2 pairs B1/B2, step 3 pairs C1/C2, anything else is absent. -/
def stepLevelPair (step : Nat) : Option (AssessmentLevel × AssessmentLevel) :=
  if step = 1 then some (.A1, .A2)
  else if step = 2 then some (.B1, .B2)
  else if step = 3 then some (.C1, .C2)
  else none

/-- Instance method `determineLevel` (AssessmentSession.ts lines 358-377):
below 25 percent no level; 25-49 the low level of the step's pair; 50 and
above the high level. -/
def determineLevel (s : AssessmentSession) : Option AssessmentLevel :=
  let percentage := (calculateScore s).percentage
  if percentage < 25 then none
  else
    match stepLevelPair s.step with
    | none => none
    | some levels => some (if percentage ≥ 50 then levels.2 else levels.1)

/-- Instance method `canProceedToNext` (AssessmentSession.ts lines 380-383):
75 percent or more and not on the final step. -/
def canProceedToNext (s : AssessmentSession) : Bool :=
  (calculateScore s).percentage ≥ 75 && s.step < 3

/-- String comparison used by the JavaScript default array sort. -/
def strLe (a b : String) : Bool := a ≤ b

/-- The ids of the options flagged `isCorrect` of a question (the
`correctOptions` computation of `checkAnswerCorrectness`). -/
def correctOptionIds (q : AssessmentQuestion) : List String :=
  (q.options.filter (·.isCorrect)).map (·.id)

/-- Instance method `checkAnswerCorrectness` (AssessmentSession.ts lines
449-466).  For a multiple-choice question it sorts the correct option ids and
the selected ids and compares them element by element after a length check
(the `options` truthiness test of the source is always true, since the schema
defaults the field to an array and arrays are truthy); every other question
type yields `false`. -/
def checkAnswerCorrectness (q : AssessmentQuestion) (selectedAnswers : List String) : Bool :=
  if q.questionType = .multipleChoice then
    let sortedCorrect := (correctOptionIds q).mergeSort strLe
    let sortedSelected := selectedAnswers.mergeSort strLe
    sortedCorrect.length == sortedSelected.length &&
      (sortedCorrect.zip sortedSelected).all (fun p => p.1 == p.2)
  else false

/-- Replace the first answer whose `questionId` matches by the new answer,
mirroring the `findIndex` / indexed-assignment pair of `submitAnswer`. -/
def replaceFirstAnswer (qid : String) (newAnswer : AssessmentAnswer) :
    List AssessmentAnswer → List AssessmentAnswer
  | [] => []
  | a :: rest =>
    if a.questionId = qid then newAnswer :: rest
    else a :: replaceFirstAnswer qid newAnswer rest

/-- The `answerData` record built by `submitAnswer`: the submission graded
by `checkAnswerCorrectness`, earning the question's points exactly when
correct, with the change counter bumped past any existing answer. -/
def mkAnswerData (now : Int) (questionId : String) (selectedAnswers : List String)
    (timeSpent : Nat) (question : AssessmentQuestion)
    (existingAnswer : Option AssessmentAnswer) : AssessmentAnswer :=
  let isCorrect := checkAnswerCorrectness question selectedAnswers
  { questionId := questionId
    selectedAnswers := selectedAnswers
    timeSpent := timeSpent
    isCorrect := isCorrect
    pointsEarned := if isCorrect then question.points else 0
    answeredAt := now
    changedAnswers :=
      match existingAnswer with
      | some old => old.changedAnswers + 1
      | none => 0
    tabSwitches := 0
    copyPasteDetected := false }

/-- Instance method `submitAnswer` (AssessmentSession.ts lines 401-446).
Throws (modelled as an error) only when the question id is not in the
snapshot; otherwise grades the submission, overwrites an existing answer for
the same question (bumping its change counter) or appends a new one, and
promotes the status from not-started to in-progress. -/
def submitAnswer (now : Int) (s : AssessmentSession) (questionId : String)
    (selectedAnswers : List String) (timeSpent : Nat) :
    Except String AssessmentSession :=
  match s.questions.find? (fun q => q.questionId == questionId) with
  | none => .error "Question not found in session"
  | some question =>
    let existingAnswer := s.answers.find? (fun a => a.questionId == questionId)
    let answerData := mkAnswerData now questionId selectedAnswers timeSpent question existingAnswer
    let answers :=
      match existingAnswer with
      | some _ => replaceFirstAnswer questionId answerData s.answers
      | none => s.answers ++ [answerData]
    let status := if s.status = .notStarted then .inProgress else s.status
    .ok { s with answers := answers, status := status }

/-- Instance method `getRemainingTime` (AssessmentSession.ts lines 469-479).
Zero without a start time or once completed; otherwise the time allowance
minus the floored elapsed seconds, clamped at zero.  `Math.floor` on the
millisecond quotient is integer floor division (`Int.fdiv`). -/
def getRemainingTime (now : Int) (s : AssessmentSession) : Int :=
  match s.startTime with
  | none => 0
  | some st =>
    if s.isCompleted then 0
    else
      let elapsedSeconds := Int.fdiv (now - st) 1000
      max 0 ((s.timeAllowed : Int) - elapsedSeconds)

/-- Instance method `isExpired` (AssessmentSession.ts lines 482-484). -/
def isExpired (now : Int) (s : AssessmentSession) : Bool :=
  getRemainingTime now s == 0 && !s.isCompleted

/-- The pre-save hook of the session schema (AssessmentSession.ts lines
307-326): forces status to completed and stamps an end time for completed
sessions, and recomputes `hasCheatingFlags` from the flag list. -/
def sessionPreSave (now : Int) (s : AssessmentSession) : AssessmentSession :=
  let s1 := if s.isCompleted ∧ s.status ≠ .completed then { s with status := .completed } else s
  let s2 := if s1.isCompleted ∧ s1.endTime = none then { s1 with endTime := some now } else s1
  { s2 with hasCheatingFlags := !s2.cheatingDetails.isEmpty }

/-- Instance method `markCompleted` (AssessmentSession.ts lines 487-511):
a no-op on an already-completed session; otherwise freezes the scoring
results, flags, status and end time, stamps the next-step unlock time when
eligible, and saves (running the pre-save hook). -/
def markCompleted (now : Int) (s : AssessmentSession) : AssessmentSession :=
  if s.isCompleted then s
  else
    let results := calculateScore s
    let achievedLevel := determineLevel s
    sessionPreSave now
      { s with
        score := some results.score
        percentage := some results.percentage
        levelAchieved := achievedLevel
        passed := results.percentage ≥ 25
        canProceedToNextStep := canProceedToNext s
        isCompleted := true
        isSubmitted := true
        endTime := some now
        status := .completed
        nextStepUnlockedAt :=
          if canProceedToNext s then some now else s.nextStepUnlockedAt }

/-- Engine-reachable shape of a session's answer list: the answered question
ids are pairwise distinct, and every answer refers to a snapshot question and
earns at most that question's points.  This holds for any session whose
answers were produced by `submitAnswer` and is preserved by it. -/
def answersWellFormed (s : AssessmentSession) : Prop :=
  (s.answers.map (·.questionId)).Nodup ∧
    ∀ a ∈ s.answers, ∃ q ∈ s.questions, q.questionId = a.questionId ∧ a.pointsEarned ≤ q.points

instance (s : AssessmentSession) : Decidable (answersWellFormed s) := by
  unfold answersWellFormed; infer_instance

/-- One per-competency score entry (`CompetencyScoreSchema`). -/
structure CompetencyScore where
  competency : String
  score : Nat
  level : AssessmentLevel
  questionsAttempted : Nat
  correctAnswers : Nat
  lastUpdated : Int
deriving DecidableEq, Repr

/-- An achievement entry (`AchievementSchema`). -/
structure Achievement where
  id : String
  name : String
  description : String
  achievementType : String
  unlockedAt : Int
  iconUrl : Option String
deriving DecidableEq, Repr

/-- The per-user progress document (`AssessmentProgressSchema`). -/
structure AssessmentProgress where
  userId : String
  currentStep : Nat
  highestLevelAchieved : AssessmentLevel
  step1Completed : Bool
  step1Score : Option Nat
  step1Level : Option AssessmentLevel
  step1CompletedAt : Option Int
  step2Completed : Bool
  step2Score : Option Nat
  step2Level : Option AssessmentLevel
  step2CompletedAt : Option Int
  step3Completed : Bool
  step3Score : Option Nat
  step3Level : Option AssessmentLevel
  step3CompletedAt : Option Int
  totalAssessmentsTaken : Nat
  totalTimeSpent : Nat
  averageScore : Nat
  competencyScores : List CompetencyScore
  canRetakeStep1 : Bool
  nextAssessmentDate : Option Int
  achievements : List Achievement
deriving DecidableEq, Repr

/-- Position of a level in the `levelOrder` array of the progress pre-save
hook (A1 lowest, C2 highest). -/
def levelIndex : AssessmentLevel → Nat
  | .A1 => 0 | .A2 => 1 | .B1 => 2 | .B2 => 3 | .C1 => 4 | .C2 => 5

/-- Indexing into the `levelOrder` array (total, as every index produced by
the hook is in range 0..5). -/
def levelOfIndex : Nat → AssessmentLevel
  | 0 => .A1 | 1 => .A2 | 2 => .B1 | 3 => .B2 | 4 => .C1 | _ => .C2

/-- JavaScript `Math.max(...list)` over a non-empty list of naturals. -/
def maxOfList : List Nat → Nat
  | [] => 0
  | [x] => x
  | x :: rest => max x (maxOfList rest)

/-- The per-step levels that are set, in step order (the `levels` filter of
the progress pre-save hook). -/
def setLevels (p : AssessmentProgress) : List AssessmentLevel :=
  [p.step1Level, p.step2Level, p.step3Level].filterMap id

/-- The per-step scores that are set, in step order (the `scores` filter of
the progress pre-save hook). -/
def setScores (p : AssessmentProgress) : List Nat :=
  [p.step1Score, p.step2Score, p.step3Score].filterMap id

/-- The pre-save hook of the progress schema (AssessmentProgress.ts lines
235-278): recomputes `currentStep` from the completion flags,
`highestLevelAchieved` as the maximum set per-step level (left unchanged when
none is set), and `averageScore` as the rounded mean of the set per-step
scores (left unchanged when none is set). -/
def progressPreSave (p : AssessmentProgress) : AssessmentProgress :=
  let currentStep :=
    if p.step3Completed then 3
    else if p.step2Completed then 3
    else if p.step1Completed then 2
    else 1
  let levels := setLevels p
  let highest :=
    if levels.isEmpty then p.highestLevelAchieved
    else levelOfIndex (maxOfList (levels.map levelIndex))
  let scores := setScores p
  let avg :=
    if scores.isEmpty then p.averageScore
    else jsRoundRatio scores.sum scores.length
  { p with currentStep := currentStep, highestLevelAchieved := highest, averageScore := avg }

/-- Instance method `updateStepProgress` (AssessmentProgress.ts lines
281-313): records one step outcome (clearing the step-1 retake flag on a
failing step-1 score), bumps the attempt counter and saves (running the
pre-save hook). -/
def updateStepProgress (now : Int) (p : AssessmentProgress) (step score : Nat)
    (level : AssessmentLevel) : AssessmentProgress :=
  let p1 :=
    match step with
    | 1 =>
      { p with
        step1Completed := true, step1Score := some score, step1Level := some level,
        step1CompletedAt := some now,
        canRetakeStep1 := if score < 25 then false else p.canRetakeStep1 }
    | 2 =>
      { p with
        step2Completed := true, step2Score := some score, step2Level := some level,
        step2CompletedAt := some now }
    | 3 =>
      { p with
        step3Completed := true, step3Score := some score, step3Level := some level,
        step3CompletedAt := some now }
    | _ => p
  progressPreSave { p1 with totalAssessmentsTaken := p1.totalAssessmentsTaken + 1 }

/-- Replace the first competency entry with the given competency name,
mirroring the `findIndex` / in-place mutation of `updateCompetencyScore`. -/
def replaceFirstCompetency (competency : String) (newEntry : CompetencyScore) :
    List CompetencyScore → List CompetencyScore
  | [] => []
  | c :: rest =>
    if c.competency = competency then newEntry :: rest
    else c :: replaceFirstCompetency competency newEntry rest

/-- Instance method `updateCompetencyScore` (AssessmentProgress.ts lines
316-348): upserts the per-competency entry, keeping the maximum score, then
saves (running the pre-save hook). -/
def updateCompetencyScore (now : Int) (p : AssessmentProgress) (competency : String)
    (score : Nat) (level : AssessmentLevel) (questionsAttempted correctAnswers : Nat) :
    AssessmentProgress :=
  let scores :=
    match p.competencyScores.find? (fun cs => cs.competency == competency) with
    | some existing =>
      replaceFirstCompetency competency
        { existing with
          score := max existing.score score
          level := level
          questionsAttempted := existing.questionsAttempted + questionsAttempted
          correctAnswers := existing.correctAnswers + correctAnswers
          lastUpdated := now }
        p.competencyScores
    | none =>
      p.competencyScores ++
        [{ competency := competency, score := score, level := level,
           questionsAttempted := questionsAttempted, correctAnswers := correctAnswers,
           lastUpdated := now }]
  progressPreSave { p with competencyScores := scores }

/-- Instance method `addAchievement` (AssessmentProgress.ts lines 351-362):
appends and saves only when no achievement with the same id exists. -/
def addAchievement (p : AssessmentProgress) (a : Achievement) : AssessmentProgress :=
  if p.achievements.any (fun x => x.id == a.id) then p
  else progressPreSave { p with achievements := p.achievements ++ [a] }

/-- Instance method `canTakeStep` (AssessmentProgress.ts lines 365-376); an
unset step score is read as 0 (the `|| 0` coalescing of the source). -/
def canTakeStep (p : AssessmentProgress) (step : Nat) : Bool :=
  match step with
  | 1 => p.canRetakeStep1 || !p.step1Completed
  | 2 => p.step1Completed && p.step1Score.getD 0 ≥ 75
  | 3 => p.step2Completed && p.step2Score.getD 0 ≥ 75
  | _ => false

/-- Instance method `getNextAvailableStep` (AssessmentProgress.ts lines
379-384). -/
def getNextAvailableStep (p : AssessmentProgress) : Option Nat :=
  if canTakeStep p 1 then some 1
  else if canTakeStep p 2 then some 2
  else if canTakeStep p 3 then some 3
  else none

/-- Option with id `a`, flagged correct, for the concrete examples. -/
def exOptA : QuestionOption :=
  { id := "a", text := "A", isCorrect := true, order := 1 }

/-- Option with id `b`, not correct, for the concrete examples. -/
def exOptB : QuestionOption :=
  { id := "b", text := "B", isCorrect := false, order := 2 }

/-- A concrete multiple-choice question whose only correct option is `a`. -/
def exQ1 : AssessmentQuestion :=
  { questionId := "q1", order := 1, competency := "information_search", level := .A1,
    points := 2, timeAllowed := 60, questionText := "?", questionType := .multipleChoice,
    options := [exOptA, exOptB] }

/-- A concrete true-false question (no options in the snapshot). -/
def exQ2 : AssessmentQuestion :=
  { questionId := "q2", order := 2, competency := "information_search", level := .A1,
    points := 3, timeAllowed := 60, questionText := "?", questionType := .trueFalse,
    options := [] }

/-- A fresh step-1 session holding the two concrete questions. -/
def baseSession : AssessmentSession :=
  { userId := "u1", step := 1, status := .notStarted, questions := [exQ1, exQ2],
    startTime := some 0, endTime := none, timeAllowed := 1800, answers := [],
    score := none, percentage := none, levelAchieved := none, passed := false,
    canProceedToNextStep := false, nextStepUnlockedAt := none, isCompleted := false,
    isSubmitted := false, hasCheatingFlags := false, cheatingDetails := [] }

/-- A recorded correct answer to the first concrete question. -/
def exAnswer1 : AssessmentAnswer :=
  { questionId := "q1", selectedAnswers := ["a"], timeSpent := 5, isCorrect := true,
    pointsEarned := 2, answeredAt := 1, changedAnswers := 0, tabSwitches := 0,
    copyPasteDetected := false }

/-- The base session after the answer to `q1` was recorded. -/
def exSession1 : AssessmentSession :=
  { baseSession with answers := [exAnswer1], status := .inProgress }

/-- Question number `i` of the 44-question scenario: one point, one correct
option `a`. -/
def scenarioQuestion (i : Nat) : AssessmentQuestion :=
  { questionId := "q" ++ toString i, order := i + 1, competency := "information_search",
    level := .A1, points := 1, timeAllowed := 60, questionText := "?",
    questionType := .multipleChoice, options := [exOptA, exOptB] }

/-- Answer number `i` of the 44-question scenario: correct for the first 30
questions, incorrect for the rest. -/
def scenarioAnswer (i : Nat) : AssessmentAnswer :=
  { questionId := "q" ++ toString i, selectedAnswers := if i < 30 then ["a"] else ["b"],
    timeSpent := 10, isCorrect := decide (i < 30),
    pointsEarned := if i < 30 then 1 else 0, answeredAt := 0, changedAnswers := 0,
    tabSwitches := 0, copyPasteDetected := false }

/-- The spec's scenario session: step 1, 44 single-point questions, 30 of
them answered correctly. -/
def exSession44 : AssessmentSession :=
  { baseSession with
    questions := (List.range 44).map scenarioQuestion,
    answers := (List.range 44).map scenarioAnswer,
    status := .inProgress }

/-- The concrete session after its completion transition has run. -/
def exSessionDone : AssessmentSession :=
  { exSession1 with isCompleted := true, status := .completed, endTime := some 5 }

/-- The answer appended when the true-false question of the concrete session
is submitted (graded incorrect, zero points). -/
def exAnswerTF : AssessmentAnswer :=
  { questionId := "q2", selectedAnswers := ["true"], timeSpent := 4, isCorrect := false,
    pointsEarned := 0, answeredAt := 2, changedAnswers := 0, tabSwitches := 0,
    copyPasteDetected := false }

/-- The concrete session after the true-false question was submitted. -/
def exSessionAfterTF : AssessmentSession :=
  { exSession1 with answers := [exAnswer1, exAnswerTF] }

/-- The overwritten answer produced by resubmitting the first question of
the concrete session. -/
def exAnswer1Resub : AssessmentAnswer :=
  { questionId := "q1", selectedAnswers := ["a"], timeSpent := 9, isCorrect := true,
    pointsEarned := 2, answeredAt := 3, changedAnswers := 1, tabSwitches := 0,
    copyPasteDetected := false }

/-- The concrete session after the first question was resubmitted. -/
def exSessionResub : AssessmentSession :=
  { exSession1 with answers := [exAnswer1Resub] }

/-- A fresh progress record with the creation defaults. -/
def exProgress1 : AssessmentProgress :=
  { userId := "u1", currentStep := 1, highestLevelAchieved := .A1,
    step1Completed := false, step1Score := none, step1Level := none, step1CompletedAt := none,
    step2Completed := false, step2Score := none, step2Level := none, step2CompletedAt := none,
    step3Completed := false, step3Score := none, step3Level := none, step3CompletedAt := none,
    totalAssessmentsTaken := 0, totalTimeSpent := 0, averageScore := 0,
    competencyScores := [], canRetakeStep1 := true, nextAssessmentDate := none,
    achievements := [] }

/-- A progress record with steps 1 and 2 completed at 75 and 76 percent. -/
def exProgress9 : AssessmentProgress :=
  { exProgress1 with
    step1Completed := true, step1Score := some 75, step1Level := some .A2,
    step2Completed := true, step2Score := some 76, step2Level := some .B2 }

/-!
Theorems.  Helper lemmas come first, then one theorem per claim of the
specification, each with its witness or counterexample where required.
-/

/-- Rounding a ratio of at most one against a positive denominator stays at
or below one hundred percent. -/
theorem jsRoundRatio_le_100 {e t : Nat} (h : e ≤ t) (ht : 0 < t) :
    jsRoundRatio (100 * e) t ≤ 100 := by
  unfold jsRoundRatio
  have h2 : 2 * (100 * e) + t < 101 * (2 * t) := by omega
  have := (Nat.div_lt_iff_lt_mul (by omega : 0 < 2 * t)).2 h2
  omega

/-- Rounding is monotone in the numerator. -/
theorem jsRoundRatio_mono {e₁ e₂ t : Nat} (h : e₁ ≤ e₂) :
    jsRoundRatio e₁ t ≤ jsRoundRatio e₂ t :=
  Nat.div_le_div_right (by omega)

/-- If every answer points to a distinct snapshot question and earns at most
that question's points, the earned total is bounded by the possible total. -/
theorem sum_pointsEarned_le (answers : List AssessmentAnswer)
    (questions : List AssessmentQuestion)
    (hnd : (answers.map (·.questionId)).Nodup)
    (hmem : ∀ a ∈ answers,
      ∃ q ∈ questions, q.questionId = a.questionId ∧ a.pointsEarned ≤ q.points) :
    (answers.map (·.pointsEarned)).sum ≤ (questions.map (·.points)).sum := by
  induction answers generalizing questions with
  | nil => simp
  | cons a rest ih =>
    obtain ⟨q, hq, hid, hpts⟩ := hmem a (List.mem_cons_self a rest)
    obtain ⟨l1, l2, rfl⟩ := List.append_of_mem hq
    simp only [List.map_cons, List.sum_cons] at *
    have hnd' := (List.nodup_cons.1 hnd)
    have hrest : (rest.map (·.questionId)).Nodup := hnd'.2
    have hsum : (rest.map (·.pointsEarned)).sum ≤ ((l1 ++ l2).map (·.points)).sum := by
      refine ih (l1 ++ l2) hrest (fun a' ha' => ?_)
      obtain ⟨q', hq', hid', hpts'⟩ := hmem a' (List.mem_cons_of_mem a ha')
      refine ⟨q', ?_, hid', hpts'⟩
      rcases List.mem_append.1 hq' with h1 | h2
      · exact List.mem_append.2 (Or.inl h1)
      · rcases List.mem_cons.1 h2 with rfl | h2'
        · exfalso
          apply hnd'.1
          rw [← hid, hid']
          exact List.mem_map_of_mem (·.questionId) ha'
        · exact List.mem_append.2 (Or.inr h2')
    simp only [List.map_append, List.sum_append, List.map_cons, List.sum_cons] at *
    omega

/-- The percentage of `calculateScore` always agrees with the rounded-ratio
formula, including on an empty answer list. -/
theorem calculateScore_percentage_eq (s : AssessmentSession) :
    (calculateScore s).percentage =
      if totalPossiblePoints s = 0 then 0
      else jsRoundRatio (100 * earnedPoints s) (totalPossiblePoints s) := by
  by_cases he : s.answers.isEmpty
  · have hnil : s.answers = [] := List.isEmpty_iff.1 he
    simp only [calculateScore, he, if_true, totalPossiblePoints, earnedPoints, hnil,
      List.map_nil, List.sum_nil, Nat.mul_zero]
    by_cases h0 : (s.questions.map (·.points)).sum = 0
    · simp [h0]
    · have h1 : jsRoundRatio 0 (s.questions.map (·.points)).sum = 0 := by
        unfold jsRoundRatio
        exact Nat.div_eq_of_lt (by omega)
      simp [h0, h1]
  · simp only [calculateScore, he, if_false, totalPossiblePoints, earnedPoints]
    by_cases h0 : (s.questions.map (·.points)).sum = 0
    · simp [h0]
    · have hpos : 0 < (s.questions.map (·.points)).sum := Nat.pos_of_ne_zero h0
      simp [h0, hpos]

/-- C2: `calculateScore` yields `percentage = round(earned / total × 100)`
with total the sum of snapshot question points and 0 when that sum is 0; the
percentage of a well-formed session lies in [0, 100]; and for a fixed
question set the percentage is monotone non-decreasing in the earned
score. -/
theorem calculateScore_percentage_spec (s : AssessmentSession) :
    ((calculateScore s).percentage =
      if totalPossiblePoints s = 0 then 0
      else jsRoundRatio (100 * earnedPoints s) (totalPossiblePoints s)) ∧
    (answersWellFormed s →
      0 ≤ (calculateScore s).percentage ∧ (calculateScore s).percentage ≤ 100) ∧
    (∀ s₂ : AssessmentSession, s₂.questions = s.questions →
      earnedPoints s ≤ earnedPoints s₂ →
      (calculateScore s).percentage ≤ (calculateScore s₂).percentage) := by
  refine ⟨calculateScore_percentage_eq s, fun hwf => ⟨Nat.zero_le _, ?_⟩, fun s₂ hq he => ?_⟩
  · rw [calculateScore_percentage_eq s]
    by_cases h0 : totalPossiblePoints s = 0
    · simp [h0]
    · have hle : earnedPoints s ≤ totalPossiblePoints s :=
        sum_pointsEarned_le s.answers s.questions hwf.1 hwf.2
      simp only [h0, if_false]
      exact jsRoundRatio_le_100 hle (Nat.pos_of_ne_zero h0)
  · rw [calculateScore_percentage_eq s, calculateScore_percentage_eq s₂]
    have ht : totalPossiblePoints s₂ = totalPossiblePoints s := by
      unfold totalPossiblePoints; rw [hq]
    rw [ht]
    by_cases h0 : totalPossiblePoints s = 0
    · simp [h0]
    · simp only [h0, if_false]
      exact jsRoundRatio_mono (by omega)

/-- The session with one graded answer is well-formed and scores within
bounds; instantiates the percentage specification. -/
theorem calculateScore_percentage_witness :
    answersWellFormed exSession1 ∧ (calculateScore exSession1).percentage ≤ 100 :=
  ⟨by decide, ((calculateScore_percentage_spec exSession1).2.1 (by decide)).2⟩

/-- C3: `determineLevel` yields no level below 25 percent, the low level of
the step's pair from 25 to 49 percent, and the high level from 50 percent on
(step 1 pairs A1/A2, step 2 pairs B1/B2, step 3 pairs C1/C2). -/
theorem determineLevel_spec (s : AssessmentSession) :
    ((calculateScore s).percentage < 25 → determineLevel s = none) ∧
    (s.step = 1 → 25 ≤ (calculateScore s).percentage →
      (calculateScore s).percentage < 50 → determineLevel s = some .A1) ∧
    (s.step = 1 → 50 ≤ (calculateScore s).percentage → determineLevel s = some .A2) ∧
    (s.step = 2 → 25 ≤ (calculateScore s).percentage →
      (calculateScore s).percentage < 50 → determineLevel s = some .B1) ∧
    (s.step = 2 → 50 ≤ (calculateScore s).percentage → determineLevel s = some .B2) ∧
    (s.step = 3 → 25 ≤ (calculateScore s).percentage →
      (calculateScore s).percentage < 50 → determineLevel s = some .C1) ∧
    (s.step = 3 → 50 ≤ (calculateScore s).percentage → determineLevel s = some .C2) := by
  unfold determineLevel stepLevelPair
  refine ⟨fun h => by simp [h], ?_, ?_, ?_, ?_, ?_, ?_⟩ <;>
    intro hstep h25 <;>
    first
      | (intro h50
         simp [hstep, Nat.not_lt.2 h25, Nat.not_le.2 h50])
      | simp [hstep, Nat.not_lt.2 (by omega : 25 ≤ (calculateScore s).percentage), h25]

/-- The scenario session (step 1, 44 one-point questions, 30 correct) scores
68 percent and achieves level A2 by the leveling rule. -/
theorem determineLevel_witness :
    (calculateScore exSession44).percentage = 68 ∧
      determineLevel exSession44 = some .A2 :=
  ⟨by decide, (determineLevel_spec exSession44).2.2.1 (by decide) (by decide)⟩

/-- C1: `markCompleted` is a no-op on a completed session; otherwise it
freezes score and percentage from the scoring rule, the level from the
leveling rule, `passed` at 25 percent, advancement at 75 percent below step
3, marks the session completed and submitted with a completed status and the
current end time, and stamps the unlock time exactly when advancement is
granted. -/
theorem markCompleted_spec (now : Int) (s : AssessmentSession) :
    (s.isCompleted = true → markCompleted now s = s) ∧
    (s.isCompleted = false →
      (markCompleted now s).score = some (calculateScore s).score ∧
      (markCompleted now s).percentage = some (calculateScore s).percentage ∧
      (markCompleted now s).levelAchieved = determineLevel s ∧
      ((markCompleted now s).passed = true ↔ 25 ≤ (calculateScore s).percentage) ∧
      ((markCompleted now s).canProceedToNextStep = true ↔
        75 ≤ (calculateScore s).percentage ∧ s.step < 3) ∧
      (markCompleted now s).status = .completed ∧
      (markCompleted now s).isCompleted = true ∧
      (markCompleted now s).isSubmitted = true ∧
      (markCompleted now s).endTime = some now ∧
      ((markCompleted now s).canProceedToNextStep = true →
        (markCompleted now s).nextStepUnlockedAt = some now) ∧
      ((markCompleted now s).canProceedToNextStep = false →
        (markCompleted now s).nextStepUnlockedAt = s.nextStepUnlockedAt)) := by
  constructor
  · intro h
    unfold markCompleted
    simp [h]
  · intro h
    unfold markCompleted sessionPreSave canProceedToNext
    by_cases hc : canProceedToNext s <;>
      simp_all [canProceedToNext, markCompleted, sessionPreSave]

/-- Marking the already-completed variant of the concrete session changes
nothing; instantiates the completion specification. -/
theorem markCompleted_witness :
    markCompleted 7 { exSession1 with isCompleted := true } =
      { exSession1 with isCompleted := true } :=
  (markCompleted_spec 7 { exSession1 with isCompleted := true }).1 rfl

/-- C6 counterexample: a completed session with a start time reports 0
remaining even though the claimed elapsed-time formula yields the full
allowance, so the claim does not hold for every session with a start
time. -/
theorem getRemainingTime_counterexample :
    exSessionDone.startTime = some 0 ∧
    getRemainingTime 0 exSessionDone = 0 ∧
    max (0 : Int) ((exSessionDone.timeAllowed : Int) - Int.fdiv (0 - 0) 1000) = 1800 := by
  decide

/-- C6 (amended): for a non-completed session with a start time the
remaining time is the allowance minus the floored elapsed seconds clamped at
zero, hitting zero exactly from the instant the allowance elapses; a
completed session reports zero regardless. -/
theorem getRemainingTime_spec (now st : Int) (s : AssessmentSession)
    (hst : s.startTime = some st) :
    (s.isCompleted = false →
      getRemainingTime now s =
        max 0 ((s.timeAllowed : Int) - Int.fdiv (now - st) 1000) ∧
      (getRemainingTime now s = 0 ↔ st + (s.timeAllowed : Int) * 1000 ≤ now)) ∧
    (s.isCompleted = true → getRemainingTime now s = 0) := by
  constructor
  · intro hc
    constructor
    · simp [getRemainingTime, hst, hc]
    · simp only [getRemainingTime, hst, hc, Bool.false_eq_true, if_false]
      rw [Int.fdiv_eq_ediv _ (by norm_num), max_eq_left_iff]
      have hx := Int.ediv_add_emod (now - st) 1000
      have hr0 : 0 ≤ (now - st) % 1000 := Int.emod_nonneg _ (by norm_num)
      have hr1 : (now - st) % 1000 < 1000 := Int.emod_lt_of_pos _ (by norm_num)
      have hta : (0 : Int) ≤ (s.timeAllowed : Int) := Int.ofNat_nonneg _
      constructor
      · intro h; omega
      · intro h; omega
  · intro hc
    simp [getRemainingTime, hst, hc]

/-- The fresh concrete session has its full allowance available immediately
and none from the moment the allowance elapses; instantiates the
remaining-time specification. -/
theorem getRemainingTime_witness :
    getRemainingTime 0 exSession1 = 1800 ∧ getRemainingTime 1800000 exSession1 = 0 := by
  have h := (getRemainingTime_spec 0 0 exSession1 rfl).1 rfl
  have h' := (getRemainingTime_spec 1800000 0 exSession1 rfl).1 rfl
  refine ⟨?_, h'.2.mpr (by decide)⟩
  rw [h.1]
  decide

/-- Steps other than 1, 2 and 3 are never eligible. -/
theorem canTakeStep_other (p : AssessmentProgress) :
    ∀ m, m ≠ 1 → m ≠ 2 → m ≠ 3 → canTakeStep p m = false := by
  intro m hm1 hm2 hm3
  match m, hm1, hm2, hm3 with
  | 0, _, _, _ => rfl
  | 1, h, _, _ => exact absurd rfl h
  | 2, _, h, _ => exact absurd rfl h
  | 3, _, _, h => exact absurd rfl h
  | (k + 4), _, _, _ => rfl

/-- C7: eligibility for step 1 is the retake flag or step 1 never completed,
for steps 2 and 3 it is completion of the previous step with at least 75
there (an unset score counting as 0), and `getNextAvailableStep` returns the
lowest-numbered eligible step, or none when no step is eligible. -/
theorem canTakeStep_spec (p : AssessmentProgress) :
    (canTakeStep p 1 = true ↔ (p.canRetakeStep1 = true ∨ p.step1Completed = false)) ∧
    (canTakeStep p 2 = true ↔ (p.step1Completed = true ∧ 75 ≤ p.step1Score.getD 0)) ∧
    (canTakeStep p 3 = true ↔ (p.step2Completed = true ∧ 75 ≤ p.step2Score.getD 0)) ∧
    (∀ n : Nat, getNextAvailableStep p = some n ↔
      (canTakeStep p n = true ∧ ∀ m, m < n → canTakeStep p m = false)) ∧
    (getNextAvailableStep p = none ↔ ∀ n, canTakeStep p n = false) := by
  have hbad : ∀ n, canTakeStep p n = true → n = 1 ∨ n = 2 ∨ n = 3 := by
    intro n hn
    by_contra hc
    push_neg at hc
    rw [canTakeStep_other p n hc.1 hc.2.1 hc.2.2] at hn
    exact Bool.noConfusion hn
  refine ⟨?_, ?_, ?_, ?_, ?_⟩
  · simp [canTakeStep]
  · simp [canTakeStep, Nat.le_iff_lt_or_eq]
  · simp [canTakeStep, Nat.le_iff_lt_or_eq]
  · intro n
    cases h1 : canTakeStep p 1 with
    | true =>
      simp only [getNextAvailableStep, h1, if_true]
      constructor
      · intro h
        injection h with h
        subst h
        refine ⟨h1, fun m hm => ?_⟩
        have hm0 : m = 0 := by omega
        subst hm0; rfl
      · rintro ⟨hn, hmin⟩
        have hn1 : n = 1 := by
          rcases hbad n hn with rfl | rfl | rfl
          · rfl
          · exact absurd h1 (by simpa using hmin 1 (by omega))
          · exact absurd h1 (by simpa using hmin 1 (by omega))
        subst hn1; rfl
    | false =>
      cases h2 : canTakeStep p 2 with
      | true =>
        simp only [getNextAvailableStep, h1, h2, if_false, if_true]
        constructor
        · intro h
          injection h with h
          subst h
          refine ⟨h2, fun m hm => ?_⟩
          match m, hm with
          | 0, _ => rfl
          | 1, _ => exact h1
        · rintro ⟨hn, hmin⟩
          have hn2 : n = 2 := by
            rcases hbad n hn with rfl | rfl | rfl
            · exact absurd hn (by simp [h1])
            · rfl
            · exact absurd h2 (by simpa using hmin 2 (by omega))
          subst hn2; rfl
      | false =>
        cases h3 : canTakeStep p 3 with
        | true =>
          simp only [getNextAvailableStep, h1, h2, h3, if_false, if_true]
          constructor
          · intro h
            injection h with h
            subst h
            refine ⟨h3, fun m hm => ?_⟩
            match m, hm with
            | 0, _ => rfl
            | 1, _ => exact h1
            | 2, _ => exact h2
          · rintro ⟨hn, hmin⟩
            have hn3 : n = 3 := by
              rcases hbad n hn with rfl | rfl | rfl
              · exact absurd hn (by simp [h1])
              · exact absurd hn (by simp [h2])
              · rfl
            subst hn3; rfl
        | false =>
          simp only [getNextAvailableStep, h1, h2, h3, if_false]
          constructor
          · intro h
            exact Option.noConfusion h
          · rintro ⟨hn, -⟩
            rcases hbad n hn with rfl | rfl | rfl
            · exact absurd hn (by simp [h1])
            · exact absurd hn (by simp [h2])
            · exact absurd hn (by simp [h3])
  · cases h1 : canTakeStep p 1 with
    | true =>
      simp only [getNextAvailableStep, h1, if_true]
      constructor
      · intro h; exact Option.noConfusion h
      · intro h
        exact absurd h1 (by simp [h 1])
    | false =>
      cases h2 : canTakeStep p 2 with
      | true =>
        simp only [getNextAvailableStep, h1, h2, if_false, if_true]
        constructor
        · intro h; exact Option.noConfusion h
        · intro h
          exact absurd h2 (by simp [h 2])
      | false =>
        cases h3 : canTakeStep p 3 with
        | true =>
          simp only [getNextAvailableStep, h1, h2, h3, if_false, if_true]
          constructor
          · intro h; exact Option.noConfusion h
          · intro h
            exact absurd h3 (by simp [h 3])
        | false =>
          simp only [getNextAvailableStep, h1, h2, h3, if_false]
          constructor
          · intro _ n
            by_cases e1 : n = 1
            · subst e1; exact h1
            by_cases e2 : n = 2
            · subst e2; exact h2
            by_cases e3 : n = 3
            · subst e3; exact h3
            · exact canTakeStep_other p n e1 e2 e3
          · intro _; rfl

/-- On a fresh record, step 1 is eligible and is the next available step;
instantiates the eligibility specification. -/
theorem canTakeStep_witness : getNextAvailableStep exProgress1 = some 1 := by
  refine ((canTakeStep_spec exProgress1).2.2.2.1 1).mpr ⟨by decide, fun m hm => ?_⟩
  match m, hm with
  | 0, _ => rfl

/-- C8: a failing step-1 outcome clears `canRetakeStep1`, and none of the
engine operations on a progress record with the flag cleared ever sets it
back: `updateStepProgress` preserves a cleared flag, and
`updateCompetencyScore`, `addAchievement` and the pre-save recomputation
leave the flag untouched. -/
theorem canRetakeStep1_spec (now : Int) (p : AssessmentProgress) (score : Nat)
    (level : AssessmentLevel) :
    (score < 25 → (updateStepProgress now p 1 score level).canRetakeStep1 = false) ∧
    (p.canRetakeStep1 = false →
      ∀ step, (updateStepProgress now p step score level).canRetakeStep1 = false) ∧
    (∀ competency qa ca,
      (updateCompetencyScore now p competency score level qa ca).canRetakeStep1 =
        p.canRetakeStep1) ∧
    (∀ a, (addAchievement p a).canRetakeStep1 = p.canRetakeStep1) ∧
    (progressPreSave p).canRetakeStep1 = p.canRetakeStep1 := by
  refine ⟨?_, ?_, ?_, ?_, rfl⟩
  · intro h
    simp [updateStepProgress, progressPreSave, h]
  · intro h step
    rcases step with _ | _ | _ | _ | n <;>
      simp [updateStepProgress, progressPreSave, h]
  · intro competency qa ca
    unfold updateCompetencyScore
    cases p.competencyScores.find? (fun cs => cs.competency == competency) <;> rfl
  · intro a
    unfold addAchievement
    split <;> rfl

/-- A failing step-1 score on the fresh record clears the retake flag, and a
later step-2 update leaves it cleared; instantiates the monotonicity
specification. -/
theorem canRetakeStep1_witness :
    (updateStepProgress 0 exProgress1 1 10 .A1).canRetakeStep1 = false ∧
    (updateStepProgress 1 (updateStepProgress 0 exProgress1 1 10 .A1) 2 80
        .B2).canRetakeStep1 = false :=
  ⟨(canRetakeStep1_spec 0 exProgress1 10 .A1).1 (by omega),
   (canRetakeStep1_spec 1 (updateStepProgress 0 exProgress1 1 10 .A1) 80 .B2).2.1
     ((canRetakeStep1_spec 0 exProgress1 10 .A1).1 (by omega)) 2⟩

/-- Natural rounding of a ratio, characterized by the half-up bracketing
inequalities. -/
theorem jsRoundRatio_bounds (S n : Nat) (hn : 0 < n) :
    2 * n * jsRoundRatio S n ≤ 2 * S + n ∧
      2 * S + n < 2 * n * (jsRoundRatio S n + 1) := by
  unfold jsRoundRatio
  have hdpos : 0 < 2 * n := by omega
  have hdm := Nat.div_add_mod (2 * S + n) (2 * n)
  have hmod : (2 * S + n) % (2 * n) < 2 * n := Nat.mod_lt _ hdpos
  constructor
  · calc 2 * n * ((2 * S + n) / (2 * n))
        ≤ 2 * n * ((2 * S + n) / (2 * n)) + (2 * S + n) % (2 * n) := Nat.le_add_right _ _
      _ = 2 * S + n := hdm
  · calc 2 * S + n
        = 2 * n * ((2 * S + n) / (2 * n)) + (2 * S + n) % (2 * n) := hdm.symm
      _ < 2 * n * ((2 * S + n) / (2 * n)) + 2 * n := Nat.add_lt_add_left hmod _
      _ = 2 * n * ((2 * S + n) / (2 * n) + 1) := (Nat.mul_succ _ _).symm

/-- A nonempty list contains its maximum. -/
theorem maxOfList_mem : ∀ (l : List Nat), l ≠ [] → maxOfList l ∈ l := by
  intro l
  induction l with
  | nil => intro h; exact absurd rfl h
  | cons x rest ih =>
    intro _
    cases rest with
    | nil => simp [maxOfList]
    | cons y t =>
      rcases max_choice x (maxOfList (y :: t)) with h | h
      · simp [maxOfList, h]
      · simp only [maxOfList, h]
        exact List.mem_cons_of_mem x (ih (by simp))

/-- Every element is bounded by the maximum of its list. -/
theorem le_maxOfList : ∀ (l : List Nat) (x : Nat), x ∈ l → x ≤ maxOfList l := by
  intro l
  induction l with
  | nil => intro x hx; exact absurd hx (List.not_mem_nil x)
  | cons y rest ih =>
    intro x hx
    cases rest with
    | nil =>
      rcases List.mem_cons.1 hx with rfl | h
      · exact Nat.le_refl _
      · exact absurd h (List.not_mem_nil x)
    | cons z t =>
      rcases List.mem_cons.1 hx with rfl | h
      · exact le_max_left _ _
      · exact le_trans (ih x h) (le_max_right _ _)

/-- Indexing back a level's position recovers the level. -/
theorem levelOfIndex_levelIndex (l : AssessmentLevel) : levelOfIndex (levelIndex l) = l := by
  cases l <;> rfl

/-- C9 counterexample: after saving a record whose set step scores are 75
and 76 the stored average is 76, not the exact mean 75.5, so the derived
average is not the mean of the set step scores. -/
theorem progressPreSave_counterexample :
    setScores exProgress9 = [75, 76] ∧
    ((progressPreSave exProgress9).averageScore : ℚ) ≠ ((75 : ℚ) + 76) / 2 := by
  have h : (progressPreSave exProgress9).averageScore = 76 := by decide
  refine ⟨by decide, ?_⟩
  rw [h]
  norm_num

/-- C9 (amended): after every save, `currentStep` is 3 when step 2 or 3 is
completed, else 2 when step 1 is, else 1; when at least one per-step level
is set, `highestLevelAchieved` is the maximum set level in the ordering
A1 < A2 < B1 < B2 < C1 < C2; and when at least one per-step score is set,
`averageScore` is the mean of the set scores rounded half-up to the nearest
integer, unset steps being excluded rather than counted as zero. -/
theorem progressPreSave_spec (p : AssessmentProgress) :
    ((p.step2Completed = true ∨ p.step3Completed = true) →
      (progressPreSave p).currentStep = 3) ∧
    (p.step2Completed = false → p.step3Completed = false → p.step1Completed = true →
      (progressPreSave p).currentStep = 2) ∧
    (p.step1Completed = false → p.step2Completed = false → p.step3Completed = false →
      (progressPreSave p).currentStep = 1) ∧
    (setLevels p ≠ [] →
      (progressPreSave p).highestLevelAchieved ∈ setLevels p ∧
      ∀ l ∈ setLevels p,
        levelIndex l ≤ levelIndex (progressPreSave p).highestLevelAchieved) ∧
    (setScores p ≠ [] →
      2 * (setScores p).length * (progressPreSave p).averageScore ≤
          2 * (setScores p).sum + (setScores p).length ∧
      2 * (setScores p).sum + (setScores p).length <
          2 * (setScores p).length * ((progressPreSave p).averageScore + 1)) := by
  refine ⟨?_, ?_, ?_, ?_, ?_⟩
  · rintro (h | h) <;> by_cases h3 : p.step3Completed <;>
      simp [progressPreSave, h, h3]
  · intro h2 h3 h1
    simp [progressPreSave, h1, h2, h3]
  · intro h1 h2 h3
    simp [progressPreSave, h1, h2, h3]
  · intro hne
    have hmapne : (setLevels p).map levelIndex ≠ [] := by
      intro hmap
      exact hne (List.map_eq_nil_iff.1 hmap)
    have hL : (progressPreSave p).highestLevelAchieved =
        levelOfIndex (maxOfList ((setLevels p).map levelIndex)) := by
      simp [progressPreSave, List.isEmpty_iff, hne]
    obtain ⟨l, hl, hli⟩ := List.mem_map.1 (maxOfList_mem _ hmapne)
    constructor
    · rw [hL, ← hli, levelOfIndex_levelIndex]
      exact hl
    · intro l' hl'
      rw [hL, ← hli, levelOfIndex_levelIndex, hli]
      exact le_maxOfList _ _ (List.mem_map_of_mem _ hl')
  · intro hne
    have hA : (progressPreSave p).averageScore =
        jsRoundRatio (setScores p).sum (setScores p).length := by
      simp [progressPreSave, List.isEmpty_iff, hne]
    rw [hA]
    exact jsRoundRatio_bounds _ _ (List.length_pos.2 hne)

/-- Saving the concrete two-step record drives the derived fields to step 3,
level B2 and the rounded average 76; instantiates the amended pre-save
specification. -/
theorem progressPreSave_witness :
    (progressPreSave exProgress9).currentStep = 3 ∧
    (progressPreSave exProgress9).highestLevelAchieved ∈ setLevels exProgress9 :=
  ⟨(progressPreSave_spec exProgress9).1 (Or.inl (by decide)),
   ((progressPreSave_spec exProgress9).2.2.2.1 (by decide)).1⟩

/-- The length check plus pointwise comparison of the source's sorted-array
loop is exactly list equality. -/
theorem zipEq_iff : ∀ (l₁ l₂ : List String),
    ((l₁.length == l₂.length) && (l₁.zip l₂).all (fun p => p.1 == p.2)) = true ↔
      l₁ = l₂ := by
  intro l₁
  induction l₁ with
  | nil =>
    intro l₂
    cases l₂ with
    | nil => simp
    | cons y ys => simp
  | cons x xs ih =>
    intro l₂
    cases l₂ with
    | nil => simp
    | cons y ys =>
      have hih := ih ys
      simp only [List.length_cons, List.zip_cons_cons, List.all_cons, Bool.and_eq_true,
        beq_iff_eq, List.cons.injEq] at *
      constructor
      · rintro ⟨hlen, hxy, hall⟩
        exact ⟨hxy, hih.1 ⟨by omega, hall⟩⟩
      · rintro ⟨rfl, rfl⟩
        have := hih.2 rfl
        exact ⟨rfl, rfl, this.2⟩

/-- Sorting with the boolean string comparison yields a list sorted for the
string order. -/
theorem sorted_mergeSort_strLe (l : List String) :
    (l.mergeSort strLe).Sorted (· ≤ ·) := by
  have h := @List.sorted_mergeSort String strLe
    (fun a b c h₁ h₂ =>
      decide_eq_true (le_trans (of_decide_eq_true h₁) (of_decide_eq_true h₂)))
    (fun a b => by
      rcases le_total a b with h | h
      · simp [strLe, h]
      · simp [strLe, h])
    l
  exact h.imp (fun hab => of_decide_eq_true hab)

/-- Two string lists have equal merge sorts exactly when they are
permutations of one another. -/
theorem mergeSort_eq_iff_perm (l₁ l₂ : List String) :
    l₁.mergeSort strLe = l₂.mergeSort strLe ↔ l₁.Perm l₂ := by
  constructor
  · intro h
    have p1 := List.mergeSort_perm l₁ strLe
    have p2 : (l₁.mergeSort strLe).Perm l₂ := h ▸ List.mergeSort_perm l₂ strLe
    exact p1.symm.trans p2
  · intro h
    have hperm : (l₁.mergeSort strLe).Perm (l₂.mergeSort strLe) :=
      ((List.mergeSort_perm l₁ strLe).trans h).trans (List.mergeSort_perm l₂ strLe).symm
    exact List.eq_of_perm_of_sorted hperm (sorted_mergeSort_strLe l₁) (sorted_mergeSort_strLe l₂)

/-- A multiple-choice submission is graded correct exactly when the selected
ids are a permutation (order-independent, duplicate-sensitive rearrangement)
of the correct option ids. -/
theorem checkAnswerCorrectness_mc_iff (q : AssessmentQuestion) (sel : List String)
    (hq : q.questionType = .multipleChoice) :
    checkAnswerCorrectness q sel = true ↔ sel.Perm (correctOptionIds q) := by
  unfold checkAnswerCorrectness
  simp only [hq, if_true]
  rw [zipEq_iff]
  constructor
  · intro h
    exact ((mergeSort_eq_iff_perm _ _).1 h.symm)
  · intro h
    exact (mergeSort_eq_iff_perm _ _).2 h.symm

/-- Replacing the answer of a question leaves the answered question ids
untouched. -/
theorem replaceFirstAnswer_map_qid (qid : String) (newAnswer : AssessmentAnswer)
    (h : newAnswer.questionId = qid) :
    ∀ l : List AssessmentAnswer,
      (replaceFirstAnswer qid newAnswer l).map (·.questionId) = l.map (·.questionId) := by
  intro l
  induction l with
  | nil => rfl
  | cons a rest ih =>
    by_cases ha : a.questionId = qid
    · simp [replaceFirstAnswer, ha, h]
    · simp [replaceFirstAnswer, ha, ih]

/-- Replacing an answer preserves the length of the answer list. -/
theorem replaceFirstAnswer_length (qid : String) (newAnswer : AssessmentAnswer) :
    ∀ l : List AssessmentAnswer, (replaceFirstAnswer qid newAnswer l).length = l.length := by
  intro l
  induction l with
  | nil => rfl
  | cons a rest ih =>
    by_cases ha : a.questionId = qid
    · simp [replaceFirstAnswer, ha]
    · simp [replaceFirstAnswer, ha, ih]

/-- Every answer of the replaced list is an old answer or the new one. -/
theorem mem_replaceFirstAnswer (qid : String) (newAnswer : AssessmentAnswer)
    (a' : AssessmentAnswer) :
    ∀ l : List AssessmentAnswer,
      a' ∈ replaceFirstAnswer qid newAnswer l → a' ∈ l ∨ a' = newAnswer := by
  intro l
  induction l with
  | nil => intro h; exact absurd h (List.not_mem_nil a')
  | cons a rest ih =>
    by_cases ha : a.questionId = qid
    · simp only [replaceFirstAnswer, ha, if_true]
      intro h
      rcases List.mem_cons.1 h with rfl | h'
      · exact Or.inr rfl
      · exact Or.inl (List.mem_cons_of_mem a h')
    · simp only [replaceFirstAnswer, ha, if_false]
      intro h
      rcases List.mem_cons.1 h with rfl | h'
      · exact Or.inl (List.mem_cons_self _ _)
      · rcases ih h' with h'' | h''
        · exact Or.inl (List.mem_cons_of_mem a h'')
        · exact Or.inr h''

/-- After replacing the first matching answer, searching for the question
finds the new answer. -/
theorem find?_replaceFirstAnswer (qid : String) (newAnswer old : AssessmentAnswer)
    (h : newAnswer.questionId = qid) :
    ∀ l : List AssessmentAnswer,
      l.find? (fun a => a.questionId == qid) = some old →
      (replaceFirstAnswer qid newAnswer l).find? (fun a => a.questionId == qid) =
        some newAnswer := by
  intro l
  induction l with
  | nil => intro hf; exact absurd hf (by simp)
  | cons a rest ih =>
    intro hf
    by_cases ha : a.questionId = qid
    · simp [replaceFirstAnswer, ha, List.find?_cons_of_pos, h]
    · rw [List.find?_cons_of_neg _ (by simpa using ha)] at hf
      simp only [replaceFirstAnswer, ha, if_false]
      rw [List.find?_cons_of_neg _ (by simpa using ha)]
      exact ih hf

/-- Appending an answer for a question not yet answered makes it the one the
search finds. -/
theorem find?_append_single (qid : String) (newAnswer : AssessmentAnswer)
    (h : newAnswer.questionId = qid) :
    ∀ l : List AssessmentAnswer,
      l.find? (fun a => a.questionId == qid) = none →
      (l ++ [newAnswer]).find? (fun a => a.questionId == qid) = some newAnswer := by
  intro l
  induction l with
  | nil =>
    intro _
    simp [List.find?_cons_of_pos, h]
  | cons a rest ih =>
    intro hf
    have ha : ¬ a.questionId = qid := by
      intro hcontra
      rw [List.find?_cons_of_pos _ (by simpa using hcontra)] at hf
      exact Option.noConfusion hf
    rw [List.find?_cons_of_neg _ (by simpa using ha)] at hf
    rw [List.cons_append, List.find?_cons_of_neg _ (by simpa using ha)]
    exact ih hf

/-- Shape of a successful submission that overwrites an existing answer. -/
theorem submitAnswer_ok_elim_replace (now : Int) (s : AssessmentSession) (qid : String)
    (sel : List String) (t : Nat) (s' : AssessmentSession) (q : AssessmentQuestion)
    (old : AssessmentAnswer)
    (hq : s.questions.find? (fun x => x.questionId == qid) = some q)
    (hex : s.answers.find? (fun a => a.questionId == qid) = some old)
    (hok : submitAnswer now s qid sel t = .ok s') :
    s' = { s with
      answers := replaceFirstAnswer qid (mkAnswerData now qid sel t q (some old)) s.answers
      status := if s.status = .notStarted then .inProgress else s.status } := by
  simp only [submitAnswer, hq, hex, Except.ok.injEq] at hok
  exact hok.symm

/-- Shape of a successful submission that answers a question for the first
time. -/
theorem submitAnswer_ok_elim_append (now : Int) (s : AssessmentSession) (qid : String)
    (sel : List String) (t : Nat) (s' : AssessmentSession) (q : AssessmentQuestion)
    (hq : s.questions.find? (fun x => x.questionId == qid) = some q)
    (hex : s.answers.find? (fun a => a.questionId == qid) = none)
    (hok : submitAnswer now s qid sel t = .ok s') :
    s' = { s with
      answers := s.answers ++ [mkAnswerData now qid sel t q none]
      status := if s.status = .notStarted then .inProgress else s.status } := by
  simp only [submitAnswer, hq, hex, Except.ok.injEq] at hok
  exact hok.symm

/-- A successful submission keeps the answer list well-formed: the answered
ids stay distinct, and every answer still matches a snapshot question within
its point budget. -/
theorem submitAnswer_preserves_wf (now : Int) (s : AssessmentSession) (qid : String)
    (sel : List String) (t : Nat) (s' : AssessmentSession) (q : AssessmentQuestion)
    (hq : s.questions.find? (fun x => x.questionId == qid) = some q)
    (hok : submitAnswer now s qid sel t = .ok s')
    (hwf : answersWellFormed s) : answersWellFormed s' := by
  have hqid : q.questionId = qid := by simpa using List.find?_some hq
  have hqmem : q ∈ s.questions := List.mem_of_find?_eq_some hq
  cases hex : s.answers.find? (fun a => a.questionId == qid) with
  | some old =>
    have he := submitAnswer_ok_elim_replace now s qid sel t s' q old hq hex hok
    subst he
    constructor
    · show ((replaceFirstAnswer qid _ s.answers).map (·.questionId)).Nodup
      rw [replaceFirstAnswer_map_qid qid _ rfl]
      exact hwf.1
    · intro a' ha'
      rcases mem_replaceFirstAnswer qid _ a' s.answers ha' with h | rfl
      · exact hwf.2 a' h
      · refine ⟨q, hqmem, ?_, ?_⟩
        · simpa [mkAnswerData] using hqid
        · by_cases hc : checkAnswerCorrectness q sel <;> simp [mkAnswerData, hc]
  | none =>
    have he := submitAnswer_ok_elim_append now s qid sel t s' q hq hex hok
    subst he
    have hnot : qid ∉ s.answers.map (·.questionId) := by
      intro hmem
      obtain ⟨a, ha, haq⟩ := List.mem_map.1 hmem
      exact (List.find?_eq_none.1 hex) a ha (by simp [haq])
    constructor
    · show ((s.answers ++ [mkAnswerData now qid sel t q none]).map (·.questionId)).Nodup
      rw [List.map_append]
      refine List.Nodup.append hwf.1 (by simp) ?_
      simp only [List.map_cons, List.map_nil]
      intro x hx hx'
      rcases List.mem_cons.1 hx' with rfl | h
      · exact hnot (by simpa [mkAnswerData] using hx)
      · exact absurd h (List.not_mem_nil x)
    · intro a' ha'
      rcases List.mem_append.1 ha' with h | h
      · exact hwf.2 a' h
      · have : a' = mkAnswerData now qid sel t q none := by simpa using h
        subst this
        refine ⟨q, hqmem, ?_, ?_⟩
        · simpa [mkAnswerData] using hqid
        · by_cases hc : checkAnswerCorrectness q sel <;> simp [mkAnswerData, hc]

/-- A well-formed answer list is never longer than the question snapshot. -/
theorem answers_le_questions (s : AssessmentSession) (hwf : answersWellFormed s) :
    s.answers.length ≤ s.questions.length := by
  have h1 : (s.answers.map (·.questionId)).toFinset.card =
      (s.answers.map (·.questionId)).length :=
    List.toFinset_card_of_nodup hwf.1
  have hsub : (s.answers.map (·.questionId)).toFinset ⊆
      (s.questions.map (·.questionId)).toFinset := by
    intro x hx
    rw [List.mem_toFinset, List.mem_map] at hx
    obtain ⟨a, ha, rfl⟩ := hx
    obtain ⟨q, hqm, hid, -⟩ := hwf.2 a ha
    rw [List.mem_toFinset, List.mem_map]
    exact ⟨q, hqm, hid⟩
  calc s.answers.length = (s.answers.map (·.questionId)).length :=
        (List.length_map _ _).symm
    _ = (s.answers.map (·.questionId)).toFinset.card := h1.symm
    _ ≤ (s.questions.map (·.questionId)).toFinset.card := Finset.card_le_card hsub
    _ ≤ (s.questions.map (·.questionId)).length := List.toFinset_card_le _
    _ = s.questions.length := List.length_map _ _

unseal String.ltb List.merge List.mergeSort in
/-- C4 counterexample: for the concrete multiple-choice question with the
single correct option id, the duplicated selection has the same id set as
the correct ids, yet the recorded entry is graded incorrect — grading is by
sorted-list (multiset) comparison, not by set equality. -/
theorem submitAnswer_counterexample :
    (["a", "a"] : List String).toFinset = (correctOptionIds exQ1).toFinset ∧
    ((submitAnswer 0 exSession1 "q1" ["a", "a"] 5).toOption.map
      (fun s2 => s2.answers.map (·.isCorrect))) = some [false] := by
  decide

/-- C4 (amended): for a well-formed session and a snapshot question id, a
successful submission leaves exactly one entry for that id and keeps the
list well-formed and no longer than the question list; resubmission
overwrites in place (same length, change counter bumped), a first submission
appends one entry with a zero counter; and the recorded entry carries the
submitted ids, is graded — for a multiple-choice question — by
order-independent multiset equality (permutation) of the selected ids
against the correct option ids, and earns the question's points exactly when
correct. -/
theorem submitAnswer_spec (now : Int) (s : AssessmentSession) (qid : String)
    (sel : List String) (t : Nat) (s' : AssessmentSession) (q : AssessmentQuestion)
    (hwf : answersWellFormed s)
    (hq : s.questions.find? (fun x => x.questionId == qid) = some q)
    (hok : submitAnswer now s qid sel t = .ok s') :
    (s'.answers.map (·.questionId)).count qid = 1 ∧
    answersWellFormed s' ∧
    s'.answers.length ≤ s.questions.length ∧
    (∀ a₀, s.answers.find? (fun a => a.questionId == qid) = some a₀ →
      s'.answers.length = s.answers.length ∧
      ∃ e, s'.answers.find? (fun a => a.questionId == qid) = some e ∧
        e.changedAnswers = a₀.changedAnswers + 1) ∧
    (s.answers.find? (fun a => a.questionId == qid) = none →
      s'.answers.length = s.answers.length + 1 ∧
      ∃ e, s'.answers.find? (fun a => a.questionId == qid) = some e ∧
        e.changedAnswers = 0) ∧
    (∃ e, s'.answers.find? (fun a => a.questionId == qid) = some e ∧
      e.selectedAnswers = sel ∧
      (q.questionType = .multipleChoice →
        (e.isCorrect = true ↔ sel.Perm (correctOptionIds q))) ∧
      (e.isCorrect = true → e.pointsEarned = q.points) ∧
      (e.isCorrect = false → e.pointsEarned = 0)) := by
  have hwf' := submitAnswer_preserves_wf now s qid sel t s' q hq hok hwf
  cases hex : s.answers.find? (fun a => a.questionId == qid) with
  | some old =>
    have he := submitAnswer_ok_elim_replace now s qid sel t s' q old hq hex hok
    subst he
    have hfind' : (replaceFirstAnswer qid (mkAnswerData now qid sel t q (some old))
        s.answers).find? (fun a => a.questionId == qid) =
        some (mkAnswerData now qid sel t q (some old)) :=
      find?_replaceFirstAnswer qid _ old rfl s.answers hex
    refine ⟨?_, hwf', answers_le_questions _ hwf', ?_, ?_, ?_⟩
    · show ((replaceFirstAnswer qid _ s.answers).map (·.questionId)).count qid = 1
      rw [replaceFirstAnswer_map_qid qid _ rfl]
      have hom : old ∈ s.answers := List.mem_of_find?_eq_some hex
      have hoq : old.questionId = qid := by simpa using List.find?_some hex
      exact List.count_eq_one_of_mem hwf.1
        (hoq ▸ List.mem_map_of_mem (·.questionId) hom)
    · intro a₀ ha₀
      injection ha₀ with h
      subst h
      exact ⟨replaceFirstAnswer_length qid _ s.answers,
        mkAnswerData now qid sel t q (some old), hfind', rfl⟩
    · intro hnone
      exact Option.noConfusion hnone
    · refine ⟨_, hfind', rfl, ?_, ?_, ?_⟩
      · intro hmc
        exact checkAnswerCorrectness_mc_iff q sel hmc
      · intro hic
        have hc : checkAnswerCorrectness q sel = true := hic
        simp [mkAnswerData, hc]
      · intro hic
        have hc : checkAnswerCorrectness q sel = false := hic
        simp [mkAnswerData, hc]
  | none =>
    have he := submitAnswer_ok_elim_append now s qid sel t s' q hq hex hok
    subst he
    have hfind' : ((s.answers ++ [mkAnswerData now qid sel t q none]).find?
        (fun a => a.questionId == qid)) = some (mkAnswerData now qid sel t q none) :=
      find?_append_single qid _ rfl s.answers hex
    have hnot : qid ∉ s.answers.map (·.questionId) := by
      intro hmem
      obtain ⟨a, ha, haq⟩ := List.mem_map.1 hmem
      exact (List.find?_eq_none.1 hex) a ha (by simp [haq])
    refine ⟨?_, hwf', answers_le_questions _ hwf', ?_, ?_, ?_⟩
    · show (((s.answers ++ [mkAnswerData now qid sel t q none]).map
        (·.questionId)).count qid) = 1
      rw [List.map_append, List.count_append]
      rw [List.count_eq_zero.2 hnot]
      simp [mkAnswerData]
    · intro a₀ ha₀
      exact Option.noConfusion ha₀
    · intro _
      exact ⟨by simp, mkAnswerData now qid sel t q none, hfind', rfl⟩
    · refine ⟨_, hfind', rfl, ?_, ?_, ?_⟩
      · intro hmc
        exact checkAnswerCorrectness_mc_iff q sel hmc
      · intro hic
        have hc : checkAnswerCorrectness q sel = true := hic
        simp [mkAnswerData, hc]
      · intro hic
        have hc : checkAnswerCorrectness q sel = false := hic
        simp [mkAnswerData, hc]

unseal String.ltb List.merge List.mergeSort in
/-- Resubmitting the answered question of the concrete session keeps a
single entry for it and does not lengthen the answer list; instantiates the
submission specification. -/
theorem submitAnswer_witness :
    (exSessionResub.answers.map (·.questionId)).count "q1" = 1 ∧
    exSessionResub.answers.length = exSession1.answers.length :=
  have h := submitAnswer_spec 3 exSession1 "q1" ["a"] 9 exSessionResub exQ1
    (by decide) (by decide) (by rfl)
  ⟨h.1, (h.2.2.2.1 exAnswer1 (by decide)).1⟩

/-- C5 counterexample: the completed concrete session (whose remaining time
is 0) accepts a submission — the answer list grows from 1 to 2 entries
instead of the operation failing with the session unchanged. -/
theorem submitAnswer_completed_counterexample :
    exSessionDone.isCompleted = true ∧
    getRemainingTime 1800000 exSessionDone = 0 ∧
    exSessionDone.answers.length = 1 ∧
    ((submitAnswer 1800000 exSessionDone "q2" ["x"] 3).toOption.map
      (fun s2 => s2.answers.length)) = some 2 := by
  decide

/-- C5 (amended): `submitAnswer` fails exactly when the question id matches
no snapshot question — no completed-session or expiry check is performed, so
it succeeds on completed and expired sessions alike — and the failure is the
question-not-found error, which carries no state change. -/
theorem submitAnswer_failure_spec (now : Int) (s : AssessmentSession) (qid : String)
    (sel : List String) (t : Nat) :
    ((∀ q ∈ s.questions, q.questionId ≠ qid) ↔
      submitAnswer now s qid sel t = .error "Question not found in session") ∧
    ((∃ q ∈ s.questions, q.questionId = qid) ↔
      (submitAnswer now s qid sel t).isOk = true) := by
  cases hfind : s.questions.find? (fun q => q.questionId == qid) with
  | none =>
    have hall : ∀ q ∈ s.questions, q.questionId ≠ qid := fun q hqm h =>
      (List.find?_eq_none.1 hfind) q hqm (by simp [h])
    constructor
    · exact iff_of_true hall (by simp [submitAnswer, hfind])
    · constructor
      · rintro ⟨q, hqm, hid⟩
        exact absurd hid (hall q hqm)
      · intro hs'
        simp [submitAnswer, hfind, Except.isOk, Except.toBool] at hs'
  | some q =>
    have hqid : q.questionId = qid := by simpa using List.find?_some hfind
    have hqmem : q ∈ s.questions := List.mem_of_find?_eq_some hfind
    constructor
    · constructor
      · intro h
        exact absurd hqid (h q hqmem)
      · intro h
        simp only [submitAnswer, hfind] at h
        exact Except.noConfusion h
    · refine iff_of_true ⟨q, hqmem, hqid⟩ ?_
      simp only [submitAnswer, hfind, Except.isOk, Except.toBool]

/-- Submitting an id absent from the concrete session's snapshot yields the
question-not-found error; instantiates the failure specification. -/
theorem submitAnswer_failure_witness :
    submitAnswer 0 exSession1 "zzz" ["a"] 1 = .error "Question not found in session" :=
  (submitAnswer_failure_spec 0 exSession1 "zzz" ["a"] 1).1.1 (by decide)

/-- C10: a question whose type is not multiple-choice is never graded
correct, and a successful submission for it records an entry with
`isCorrect = false` and zero points earned — only multiple-choice questions
can contribute points. -/
theorem submitAnswer_nonMC_spec (now : Int) (s : AssessmentSession) (qid : String)
    (sel : List String) (t : Nat) (s' : AssessmentSession) (q : AssessmentQuestion)
    (hq : s.questions.find? (fun x => x.questionId == qid) = some q)
    (hmc : q.questionType ≠ .multipleChoice)
    (hok : submitAnswer now s qid sel t = .ok s') :
    checkAnswerCorrectness q sel = false ∧
    ∃ e, s'.answers.find? (fun a => a.questionId == qid) = some e ∧
      e.isCorrect = false ∧ e.pointsEarned = 0 := by
  have hcc : checkAnswerCorrectness q sel = false := by
    unfold checkAnswerCorrectness
    simp [hmc]
  refine ⟨hcc, ?_⟩
  cases hex : s.answers.find? (fun a => a.questionId == qid) with
  | some old =>
    have he := submitAnswer_ok_elim_replace now s qid sel t s' q old hq hex hok
    subst he
    exact ⟨_, find?_replaceFirstAnswer qid _ old rfl s.answers hex,
      hcc, by simp [mkAnswerData, hcc]⟩
  | none =>
    have he := submitAnswer_ok_elim_append now s qid sel t s' q hq hex hok
    subst he
    exact ⟨_, find?_append_single qid _ rfl s.answers hex,
      hcc, by simp [mkAnswerData, hcc]⟩

/-- The true-false question of the concrete session grades as incorrect;
instantiates the non-multiple-choice specification. -/
theorem submitAnswer_nonMC_witness :
    checkAnswerCorrectness exQ2 ["true"] = false :=
  (submitAnswer_nonMC_spec 2 exSession1 "q2" ["true"] 4 exSessionAfterTF exQ2
    (by decide) (by decide) (by rfl)).1

end DCP
